import Mathlib

/-!
# Yatube feed/follow/visibility model

A shallow embedding of the `posts` application of the Yatube blogging
repository: the data model (`User`, `Group`, `Post`, `Comment`, `Follow`),
the view functions of `posts/views.py` (`index`, `group_posts`, `profile`,
`post_detail`, `post_edit`, `add_comment`, `follow_index`, `profile_follow`)
and the page cache of the global feed.

The relational store is modelled as explicit lists inside a `DB` record;
queryset filters become `List.filter`, the `('-pub_date',)` / `('-created',)`
model orderings of migration `0011_auto_20220925_1658` become a descending
insertion sort, `get_object_or_404` becomes `List.find?`/`contains` with a
`notFound` result, and `@login_required` becomes a `redirectLogin` result for
an anonymous (`none`) viewer.  Rendering is modelled as a pure function from
the context to a `String` (the spec treats the templating layer as a pure
function from context to bytes).
-/

namespace Yatube

/-- A group (community): `title`, unique `slug`, `description`. -/
structure Group where
  id : Nat
  slug : String
  title : String
  description : String
deriving DecidableEq, Repr

/-- A post: text body, required author, optional group, optional image,
creation timestamp `pubDate` (modelling `pub_date`).  Users are identified by
their (unique) username, modelled as a `Nat`. -/
structure Post where
  id : Nat
  author : Nat
  text : String
  group : Option Nat
  image : Option String
  pubDate : Nat
deriving DecidableEq, Repr

/-- A comment: text, author, the commented post, creation timestamp. -/
structure Comment where
  author : Nat
  post : Nat
  text : String
  created : Nat
deriving DecidableEq, Repr

/-- A directed follow edge: `user` follows `author`. -/
structure Follow where
  user : Nat
  author : Nat
deriving DecidableEq, Repr

/-- The relational store: registered users (by username), groups, posts,
comments and follow edges. -/
structure DB where
  users : List Nat
  groups : List Group
  posts : List Post
  comments : List Comment
  follows : List Follow
deriving DecidableEq, Repr

/-- Storage-level invariants: the `unique_user_author` constraint of migration
`0011_auto_20220925_1658` (no duplicate follow edges), and uniqueness of the
primary keys and of group slugs. -/
def DB.wf (db : DB) : Prop :=
  db.follows.Nodup ∧ (db.groups.map Group.id).Nodup ∧
    (db.groups.map Group.slug).Nodup ∧ (db.posts.map Post.id).Nodup

instance (db : DB) : Decidable db.wf := by
  unfold DB.wf; infer_instance

/-- `q.pubDate ≤ p.pubDate`: post `p` is at least as recent as `q`.  The
`('-pub_date',)` default ordering of the `Post` model sorts by this
relation. -/
def postLater (p q : Post) : Prop := q.pubDate ≤ p.pubDate

instance : DecidableRel postLater := fun p q => Nat.decLe q.pubDate p.pubDate

instance : IsTotal Post postLater :=
  ⟨fun p q => Nat.le_total q.pubDate p.pubDate⟩

instance : IsTrans Post postLater :=
  ⟨fun _ _ _ h1 h2 => Nat.le_trans h2 h1⟩

/-- `d.created ≤ c.created`: comment `c` is at least as recent as `d`.  The
`('-created',)` default ordering of the `Comment` model sorts by this
relation. -/
def commentLater (c d : Comment) : Prop := d.created ≤ c.created

instance : DecidableRel commentLater := fun c d => Nat.decLe d.created c.created

instance : IsTotal Comment commentLater :=
  ⟨fun c d => Nat.le_total d.created c.created⟩

instance : IsTrans Comment commentLater :=
  ⟨fun _ _ _ h1 h2 => Nat.le_trans h2 h1⟩

/-- Newest-first ordering of a queryset of posts (`('-pub_date',)`). -/
def sortPosts (ps : List Post) : List Post := List.insertionSort postLater ps

/-- Newest-first ordering of a queryset of comments (`('-created',)`). -/
def sortComments (cs : List Comment) : List Comment :=
  List.insertionSort commentLater cs

/-- `Follow.objects.filter(user=u, author=a).exists()`. -/
def followExists (db : DB) (u a : Nat) : Bool :=
  db.follows.any (fun f => f.user == u && f.author == a)

/-- The number of stored follow edges from `u` to `a`. -/
def countFollow (db : DB) (u a : Nat) : Nat :=
  (db.follows.filter (fun f => f.user == u && f.author == a)).length

/-- HTTP request method, as far as the views distinguish it. -/
inductive Method where
  | get
  | post
deriving DecidableEq, Repr

/-! ## Feeds (the visibility/feed resolver of each view) -/

/-- `Post.objects.all()` as seen by the `index` view: every post, newest
first. -/
def indexFeed (db : DB) : List Post := sortPosts db.posts

/-- `group.posts.all()`: every post of group `g`, newest first. -/
def groupFeed (db : DB) (g : Group) : List Post :=
  sortPosts (db.posts.filter (fun p => p.group == some g.id))

/-- `author.posts.all()`: every post by `a`, newest first. -/
def profileFeed (db : DB) (a : Nat) : List Post :=
  sortPosts (db.posts.filter (fun p => p.author == a))

/-- `Post.objects.filter(author__following__user=current_user)`: every post
whose author has a follow edge from viewer `v`, newest first. -/
def followIndexFeed (db : DB) (v : Nat) : List Post :=
  sortPosts (db.posts.filter (fun p => followExists db v p.author))

/-- `post.comments.all()`: every comment on post `postId`, newest first. -/
def detailComments (db : DB) (postId : Nat) : List Comment :=
  sortComments (db.comments.filter (fun c => c.post == postId))

/-! ## Read-only views -/

/-- Result of `group_posts`: 404 for an unknown slug, otherwise the group and
its feed. -/
inductive GroupPageResult where
  | notFound
  | page (group : Group) (page_obj : List Post)
deriving DecidableEq, Repr

/-- `group_posts(request, slug)` (views.py:20-28): look the group up by slug
(`get_object_or_404`), then render its posts. -/
def group_posts (db : DB) (slug : String) : GroupPageResult :=
  match db.groups.find? (fun g => g.slug == slug) with
  | none => .notFound
  | some g => .page g (groupFeed db g)

/-- The context rendered by the `profile` view.  `following` is `none` when
the view put no `following` key into the context at all (the anonymous
branch of views.py:51-55), and `some b` when it supplied the boolean `b`. -/
structure ProfileContext where
  page_obj : List Post
  author : Nat
  following : Option Bool
deriving DecidableEq, Repr

/-- Result of `profile`: 404 for an unknown username, otherwise the rendered
context. -/
inductive ProfileResult where
  | notFound
  | page (ctx : ProfileContext)
deriving DecidableEq, Repr

/-- `profile(request, username)` (views.py:31-55): look the author up by
username; authenticated viewers additionally get the `following` flag,
computed as `Follow.objects.filter(author=author, user=current_user)
.exists()`; the anonymous branch renders a context without a `following`
key. -/
def profile (db : DB) (viewer : Option Nat) (username : Nat) : ProfileResult :=
  if db.users.contains username then
    match viewer with
    | some v =>
        .page ⟨profileFeed db username, username, some (followExists db v username)⟩
    | none => .page ⟨profileFeed db username, username, none⟩
  else .notFound

/-- Result of `post_detail`: 404 for an unknown id, otherwise the post and
its comments. -/
inductive DetailResult where
  | notFound
  | page (post : Post) (comments : List Comment)
deriving DecidableEq, Repr

/-- `post_detail(request, post_id)` (views.py:58-67). -/
def post_detail (db : DB) (postId : Nat) : DetailResult :=
  match db.posts.find? (fun p => p.id == postId) with
  | none => .notFound
  | some p => .page p (detailComments db postId)

/-- Result of `follow_index`: `@login_required` redirects anonymous viewers
to the login page; authenticated viewers get their personalized feed. -/
inductive FollowIndexResult where
  | redirectLogin
  | page (page_obj : List Post)
deriving DecidableEq, Repr

/-- `follow_index(request)` (views.py:126-136). -/
def follow_index (db : DB) (viewer : Option Nat) : FollowIndexResult :=
  match viewer with
  | none => .redirectLogin
  | some v => .page (followIndexFeed db v)

/-! ## Mutating views -/

/-- The bound data of a `PostForm` submission. -/
structure PostFormData where
  text : String
  group : Option Nat
  image : Option String
deriving DecidableEq, Repr

/-- Modelled from the spec: `PostForm` is defined in `posts/forms.py`, which
is not among the provided sources.  Per the spec, post creation/editing
"validates required text field and optional group/image", so the form is
valid iff the text is non-empty. -/
def postFormValid (f : PostFormData) : Bool := f.text != ""

/-- `form.save()` on a `PostForm` bound to an existing instance: overwrite
the post's editable fields (`text`, `group`, `image`); `id`, `author` and
`pub_date` are not form fields and stay unchanged. -/
def updatePost (db : DB) (postId : Nat) (f : PostFormData) : DB :=
  { db with
    posts := db.posts.map (fun p =>
      if p.id == postId then
        { p with text := f.text, group := f.group, image := f.image }
      else p) }

/-- Result of `post_edit`: login redirect for anonymous actors
(`@login_required`), 404 for an unknown post id, the (re-)rendered edit form,
or a redirect to the post's detail view together with the resulting store. -/
inductive EditResult where
  | redirectLogin
  | notFound
  | renderForm (db : DB)
  | redirectDetail (postId : Nat) (db : DB)
deriving DecidableEq, Repr

/-- `post_edit(request, post_id)` (views.py:88-109): anonymous actors are
redirected to login by `@login_required`; the author gets the edit form and,
on a valid POST, the saved post plus a redirect to the detail view; any other
authenticated actor is redirected to the detail view with the store
untouched. -/
def post_edit (db : DB) (viewer : Option Nat) (postId : Nat) (method : Method)
    (formData : PostFormData) : EditResult :=
  match viewer with
  | none => .redirectLogin
  | some v =>
    match db.posts.find? (fun p => p.id == postId) with
    | none => .notFound
    | some p =>
      if v == p.author then
        if method == .post && postFormValid formData then
          .redirectDetail postId (updatePost db postId formData)
        else .renderForm db
      else .redirectDetail postId db

/-- The bound data of a `CommentForm` submission. -/
structure CommentFormData where
  text : String
deriving DecidableEq, Repr

/-- Modelled from the spec: `CommentForm` is defined in `posts/forms.py`,
which is not among the provided sources.  Per the spec, adding a comment
"validates non-empty text", so the form is valid iff the text is
non-empty. -/
def commentFormValid (f : CommentFormData) : Bool := f.text != ""

/-- Result of `add_comment`: login redirect for anonymous actors, 404 for an
unknown post id, or a redirect to the post's detail view together with the
resulting store (the redirect carries no form errors). -/
inductive CommentResult where
  | redirectLogin
  | notFound
  | redirectDetail (postId : Nat) (db : DB)
deriving DecidableEq, Repr

/-- `add_comment(request, post_id)` (views.py:112-123): on a valid POST the
comment is saved with `author = request.user`, `post = post`; every other
case (invalid form, or a non-POST method) falls through to the same
`redirect('posts:post_detail', ...)` without touching the store. -/
def add_comment (db : DB) (viewer : Option Nat) (postId : Nat) (method : Method)
    (form : CommentFormData) (now : Nat) : CommentResult :=
  match viewer with
  | none => .redirectLogin
  | some v =>
    match db.posts.find? (fun p => p.id == postId) with
    | none => .notFound
    | some _ =>
      if method == .post && commentFormValid form then
        .redirectDetail postId
          { db with comments := db.comments ++ [⟨v, postId, form.text, now⟩] }
      else .redirectDetail postId db

/-- The store transition of `profile_follow`'s body (views.py:143-146):
create the edge unless the target is the viewer or the edge already
exists. -/
def followDB (db : DB) (viewer author : Nat) : DB :=
  if author != viewer && !(followExists db viewer author) then
    { db with follows := db.follows ++ [⟨viewer, author⟩] }
  else db

/-- Result of `profile_follow`: login redirect for anonymous actors, 404 for
an unknown username, or a redirect to the follow feed together with the
resulting store. -/
inductive FollowActionResult where
  | redirectLogin
  | notFound
  | redirect (db : DB)
deriving DecidableEq, Repr

/-- `profile_follow(request, username)` (views.py:139-147). -/
def profile_follow (db : DB) (viewer : Option Nat) (username : Nat) :
    FollowActionResult :=
  match viewer with
  | none => .redirectLogin
  | some v =>
    if db.users.contains username then .redirect (followDB db v username)
    else .notFound

/-! ## The global feed and its page cache -/

/-- Separator used by the serialization standing in for the template. -/
def renderSep : String := ";"

/-- The rendered bytes of the global feed: the templating layer is external
and treated as a pure function of the context, so any injective-enough
serialization of the ordered feed stands for it. -/
def renderIndex (db : DB) : String :=
  String.intercalate renderSep
    ((indexFeed db).map (fun p => toString p.id ++ ":" ++ p.text))

/-- The cache timeout of the `cache_page(20, ...)` decorator on the `index`
view (views.py:10), in seconds.  The cache key is fixed (a single
`index_page` entry), so one optional entry models the whole cache. -/
def cacheSeconds : Nat := 20

/-- The page-cache entry for the fixed `index_page` key: its expiry time and
the stored rendered bytes.  `none` models an empty/cleared cache. -/
structure CacheEntry where
  expiry : Nat
  content : String
deriving DecidableEq, Repr

/-- `index(request)` (views.py:10-17) under `@cache_page(20, ...)`: an
unexpired cache entry is served as-is; otherwise the feed is rendered fresh
from the current store and cached until `now + 20`. -/
def index (db : DB) (cache : Option CacheEntry) (now : Nat) :
    String × Option CacheEntry :=
  match cache with
  | some e =>
      if now < e.expiry then (e.content, some e)
      else (renderIndex db, some ⟨now + cacheSeconds, renderIndex db⟩)
  | none => (renderIndex db, some ⟨now + cacheSeconds, renderIndex db⟩)

/-! ## Pagination -/

/-- Modelled from the spec: `paginate_objects` is defined in
`posts/utils.py`, which is not among the provided sources.  Per spec §4.2,
the paginator splits the feed into pages of a fixed global size; the number
of pages is `⌈N / S⌉` with a minimum of one page. -/
def numPages (n S : Nat) : Nat := max 1 ((n + S - 1) / S)

/-- Modelled from the spec: page `k` of the feed holds items
`(k-1)*S … k*S-1`, and an out-of-range page number clamps to the nearest
valid page (standard paginator behavior) rather than erroring. -/
def paginate (items : List α) (S : Nat) (pageNum : Nat) : List α :=
  (items.drop ((min (max pageNum 1) (numPages items.length S) - 1) * S)).take S

/-! ## General lemmas about the embedded operations -/

theorem mem_sortPosts {p : Post} {l : List Post} : p ∈ sortPosts l ↔ p ∈ l :=
  List.mem_insertionSort postLater

theorem followExists_iff (db : DB) (v a : Nat) :
    followExists db v a = true ↔ ∃ f ∈ db.follows, f.user = v ∧ f.author = a := by
  simp [followExists, List.any_eq_true, and_assoc]

theorem countFollow_eq_zero (db : DB) (v a : Nat)
    (h : followExists db v a = false) : countFollow db v a = 0 := by
  simp only [followExists, List.any_eq_false] at h
  simp only [countFollow, List.length_eq_zero, List.filter_eq_nil_iff]
  exact fun f hf => by simpa using h f hf

theorem countFollow_pos (db : DB) (v a : Nat)
    (h : followExists db v a = true) : 1 ≤ countFollow db v a := by
  simp only [followExists, List.any_eq_true] at h
  obtain ⟨f, hf, hp⟩ := h
  have hmem : f ∈ db.follows.filter (fun f => f.user == v && f.author == a) :=
    List.mem_filter.mpr ⟨hf, hp⟩
  have : 0 < countFollow db v a := by
    unfold countFollow
    exact List.length_pos.mpr (List.ne_nil_of_mem hmem)
  omega

theorem length_le_one_of_nodup_const {α : Type} {l : List α} (c : α)
    (hnd : l.Nodup) (hc : ∀ x ∈ l, x = c) : l.length ≤ 1 := by
  match l, hnd, hc with
  | [], _, _ => simp
  | [x], _, _ => simp
  | x :: y :: rest, hnd, hc =>
    exfalso
    have hx : x = c := hc x (by simp)
    have hy : y = c := hc y (by simp)
    have hxy : x ∉ y :: rest := (List.nodup_cons.mp hnd).1
    exact hxy (hx.trans hy.symm ▸ List.mem_cons_self y rest)

theorem countFollow_le_one (db : DB) (v a : Nat) (hnd : db.follows.Nodup) :
    countFollow db v a ≤ 1 := by
  unfold countFollow
  refine length_le_one_of_nodup_const ⟨v, a⟩ (hnd.filter _) ?_
  intro f hf
  have := (List.mem_filter.mp hf).2
  cases f
  simp_all

theorem countFollow_append (db : DB) (v a : Nat) :
    countFollow { db with follows := db.follows ++ [⟨v, a⟩] } v a
      = countFollow db v a + 1 := by
  simp [countFollow, List.filter_append]

theorem followExists_append (db : DB) (v a : Nat) :
    followExists { db with follows := db.follows ++ [⟨v, a⟩] } v a = true := by
  simp [followExists]

theorem find?_group_slug (db : DB) (g : Group)
    (hnd : (db.groups.map Group.slug).Nodup) (hg : g ∈ db.groups) :
    db.groups.find? (fun g2 => g2.slug == g.slug) = some g := by
  have hsome : (db.groups.find? (fun g2 => g2.slug == g.slug)).isSome := by
    rw [List.find?_isSome]
    exact ⟨g, hg, by simp⟩
  obtain ⟨g2, hfind⟩ := Option.isSome_iff_exists.mp hsome
  have hmem := List.mem_of_find?_eq_some hfind
  have hslug : g2.slug = g.slug := by simpa using List.find?_some hfind
  rw [hfind, List.inj_on_of_nodup_map hnd hmem hg hslug]

/-! ## Concrete stores used by witnesses and counterexamples -/

/-- A store with two users, two groups and one post by user 0 in group 1. -/
def exDb : DB :=
  ⟨[0, 1],
   [⟨1, "s1", "g1", "d1"⟩, ⟨2, "s2", "g2", "d2"⟩],
   [⟨1, 0, "hello", some 1, none, 5⟩],
   [],
   [⟨0, 0⟩]⟩

/-- The single post of `exDb`. -/
def exPost : Post := ⟨1, 0, "hello", some 1, none, 5⟩

/-- `exDb` after user 0's post text changed (the mutation of
`test_cache_index`). -/
def exDbEdited : DB :=
  ⟨[0, 1],
   [⟨1, "s1", "g1", "d1"⟩, ⟨2, "s2", "g2", "d2"⟩],
   [⟨1, 0, "changed", some 1, none, 5⟩],
   [],
   [⟨0, 0⟩]⟩

/-! ## The claims -/

/-- C1: for every authenticated viewer `v`, the follow feed rendered by
`follow_index` contains exactly the stored posts whose author is followed by
`v` (a `Follow` edge with `user = v` and `author = post.author` exists) and
excludes every other post; an unauthenticated request is answered with a
redirect to login, not with an empty feed. -/
theorem follow_index_exact (db : DB) (v : Nat) (p : Post) :
    follow_index db (some v) = .page (followIndexFeed db v) ∧
    (p ∈ followIndexFeed db v ↔
      p ∈ db.posts ∧ ∃ f ∈ db.follows, f.user = v ∧ f.author = p.author) ∧
    follow_index db none = .redirectLogin := by
  refine ⟨rfl, ?_, rfl⟩
  rw [followIndexFeed, mem_sortPosts, List.mem_filter, followExists_iff]

/-- C9: in every feed (global, group, profile, follow) the posts are listed
newest-first (creation timestamp descending), and the comments listed on a
post's detail view are newest-first; this holds for every state of the
store. -/
theorem feeds_newest_first (db : DB) (v a : Nat) (g : Group) (postId : Nat) :
    (indexFeed db).Pairwise postLater ∧
    (groupFeed db g).Pairwise postLater ∧
    (profileFeed db a).Pairwise postLater ∧
    (followIndexFeed db v).Pairwise postLater ∧
    (detailComments db postId).Pairwise commentLater :=
  ⟨List.sorted_insertionSort postLater _, List.sorted_insertionSort postLater _,
   List.sorted_insertionSort postLater _, List.sorted_insertionSort postLater _,
   List.sorted_insertionSort commentLater _⟩

/-- C7: a post `p` assigned to group `g` appears in the global feed and in
`g`'s group feed, and does not appear in the group feed of any other
group. -/
theorem post_in_exactly_its_group (db : DB) (p : Post) (g g2 : Group)
    (hwf : db.wf) (hp : p ∈ db.posts) (hg : g ∈ db.groups)
    (hpg : p.group = some g.id) (hg2 : g2 ∈ db.groups) (hne : g2.id ≠ g.id) :
    p ∈ indexFeed db ∧
    group_posts db g.slug = .page g (groupFeed db g) ∧
    p ∈ groupFeed db g ∧
    group_posts db g2.slug = .page g2 (groupFeed db g2) ∧
    p ∉ groupFeed db g2 := by
  obtain ⟨-, -, hslugs, -⟩ := hwf
  refine ⟨?_, ?_, ?_, ?_, ?_⟩
  · exact mem_sortPosts.mpr hp
  · simp [group_posts, find?_group_slug db g hslugs hg]
  · exact mem_sortPosts.mpr (List.mem_filter.mpr ⟨hp, by simp [hpg]⟩)
  · simp [group_posts, find?_group_slug db g2 hslugs hg2]
  · intro hmem
    have h1 := (List.mem_filter.mp (mem_sortPosts.mp hmem)).2
    rw [hpg] at h1
    have h2 : g.id = g2.id := by simpa using h1
    exact hne h2.symm

/-- C7 witness: in the concrete store `exDb`, the post `exPost` (group 1)
appears in the global feed and in group 1's feed but not in group 2's
feed. -/
theorem post_in_exactly_its_group_witness :
    exDb.wf ∧ exPost ∈ exDb.posts ∧ exPost.group = some 1 ∧
    (exPost ∈ indexFeed exDb ∧
      group_posts exDb "s1" = .page ⟨1, "s1", "g1", "d1"⟩ (groupFeed exDb ⟨1, "s1", "g1", "d1"⟩) ∧
      exPost ∈ groupFeed exDb ⟨1, "s1", "g1", "d1"⟩ ∧
      group_posts exDb "s2" = .page ⟨2, "s2", "g2", "d2"⟩ (groupFeed exDb ⟨2, "s2", "g2", "d2"⟩) ∧
      exPost ∉ groupFeed exDb ⟨2, "s2", "g2", "d2"⟩) :=
  ⟨by decide, by decide, by decide,
   post_in_exactly_its_group exDb exPost ⟨1, "s1", "g1", "d1"⟩ ⟨2, "s2", "g2", "d2"⟩
     (by decide) (by decide) (by decide) (by decide) (by decide) (by decide)⟩

/-- C3: for an authenticated viewer `v` and an existing target `a`,
`profile_follow` leaves the follow edges unchanged when `v = a` or when the
edge already exists, and otherwise creates exactly one edge; applying it
twice yields the same store as applying it once, and (for `v ≠ a`, under the
`unique_user_author` storage constraint) leaves exactly one `(v, a)`
edge. -/
theorem profile_follow_idempotent (db : DB) (v a : Nat)
    (hwf : db.wf) (ha : db.users.contains a = true) :
    profile_follow db (some v) a = .redirect (followDB db v a) ∧
    (v = a → followDB db v a = db) ∧
    (followExists db v a = true → followDB db v a = db) ∧
    (followExists db v a = false → v ≠ a →
      countFollow db v a = 0 ∧ countFollow (followDB db v a) v a = 1) ∧
    followDB (followDB db v a) v a = followDB db v a ∧
    (v ≠ a → countFollow (followDB (followDB db v a) v a) v a = 1) := by
  have hidem : followDB (followDB db v a) v a = followDB db v a := by
    unfold followDB
    by_cases hc : (a != v && !followExists db v a) = true
    · rw [if_pos hc]
      rw [if_neg]
      simp only [followExists_append, Bool.not_true, Bool.and_false]
      exact Bool.false_ne_true
    · rw [if_neg hc, if_neg hc]
  have hcount : v ≠ a → countFollow (followDB db v a) v a = 1 := by
    intro hne
    unfold followDB
    by_cases hex : followExists db v a = true
    · rw [if_neg (by simp [hex])]
      have h1 := countFollow_pos db v a hex
      have h2 := countFollow_le_one db v a hwf.1
      omega
    · rw [if_pos (by simp_all [bne_iff_ne, Ne.symm hne])]
      rw [countFollow_append, countFollow_eq_zero db v a (by simpa using hex)]
  have ha2 : a ∈ db.users := by simpa using ha
  refine ⟨by simp [profile_follow, ha2], ?_, ?_, ?_, hidem, ?_⟩
  · intro h
    subst h
    simp [followDB]
  · intro h
    simp [followDB, h]
  · intro hex hne
    refine ⟨countFollow_eq_zero db v a hex, ?_⟩
    unfold followDB
    rw [if_pos (by simp_all [bne_iff_ne, Ne.symm hne])]
    rw [countFollow_append, countFollow_eq_zero db v a hex]
  · intro hne
    rw [hidem]
    exact hcount hne

/-- C3 witness: in `exDb` (users 0 and 1, no `(0, 1)` edge yet), following
user 1 as user 0 creates exactly one edge and doing it twice gives the same
store as doing it once. -/
theorem profile_follow_idempotent_witness :
    exDb.wf ∧ exDb.users.contains 1 = true ∧
    (followExists exDb 0 1 = false → (0 : Nat) ≠ 1 →
      countFollow exDb 0 1 = 0 ∧ countFollow (followDB exDb 0 1) 0 1 = 1) ∧
    followDB (followDB exDb 0 1) 0 1 = followDB exDb 0 1 ∧
    ((0 : Nat) ≠ 1 → countFollow (followDB (followDB exDb 0 1) 0 1) 0 1 = 1) :=
  ⟨by decide, by decide,
   (profile_follow_idempotent exDb 0 1 (by decide) (by decide)).2.2.2.1,
   (profile_follow_idempotent exDb 0 1 (by decide) (by decide)).2.2.2.2.1,
   (profile_follow_idempotent exDb 0 1 (by decide) (by decide)).2.2.2.2.2⟩

/-- C4 counterexample: the claim says every actor other than the post's
author — including an anonymous one — is redirected to the post's detail
view.  But `post_edit` is guarded by `login_required`: the anonymous actor
is redirected to the login page, which is not the detail-view redirect. -/
theorem post_edit_anonymous_cex :
    post_edit exDb none 1 Method.post ⟨"new", none, none⟩ = EditResult.redirectLogin ∧
    EditResult.redirectLogin ≠ EditResult.redirectDetail 1 exDb :=
  ⟨rfl, by decide⟩

/-- C4 (amended): every authenticated actor other than the post's author is
redirected to the post's detail view with the store untouched (the post keeps
its text, group, image and author), and an anonymous actor is redirected to
the login page — in both cases the post is not modified and no error is
surfaced; only the author's valid POST reaches `form.save()`. -/
theorem post_edit_non_author (db : DB) (v postId : Nat) (m : Method)
    (f : PostFormData) (p : Post)
    (hp : db.posts.find? (fun q => q.id == postId) = some p)
    (hv : v ≠ p.author) :
    post_edit db (some v) postId m f = .redirectDetail postId db ∧
    post_edit db none postId m f = .redirectLogin := by
  refine ⟨?_, rfl⟩
  simp [post_edit, hp, hv]

/-- C4 witness: user 1 is not the author of post 1 of `exDb` (user 0 is);
the edit attempt answers with a redirect to the detail view and the store —
in particular the post — is returned unchanged. -/
theorem post_edit_non_author_witness :
    exDb.posts.find? (fun q => q.id == 1) = some exPost ∧
    (1 : Nat) ≠ exPost.author ∧
    post_edit exDb (some 1) 1 Method.post ⟨"new", none, none⟩
      = EditResult.redirectDetail 1 exDb :=
  ⟨by decide, by decide,
   (post_edit_non_author exDb 1 1 Method.post ⟨"new", none, none⟩ exPost
     (by decide) (by decide)).1⟩

/-- C5 counterexample: the claim says the profile context always includes a
boolean `following` that is false for anonymous viewers.  In the anonymous
branch of `profile` the context contains no `following` key at all (modelled
as `none`), rather than the boolean `false`. -/
theorem profile_anonymous_cex :
    profile exDb none 0
      = ProfileResult.page ⟨profileFeed exDb 0, 0, none⟩ ∧
    (none : Option Bool) ≠ some false :=
  ⟨rfl, by decide⟩

/-- C5 (amended): the profile context contains the author's posts; for an
authenticated viewer it additionally contains the boolean `following`, true
iff a Follow edge (viewer → author) exists; for an anonymous viewer the
context carries no `following` entry at all (which the template renders the
same as false). -/
theorem profile_following_flag (db : DB) (v a : Nat) (p : Post)
    (ha : db.users.contains a = true) :
    profile db (some v) a
      = .page ⟨profileFeed db a, a, some (followExists db v a)⟩ ∧
    (followExists db v a = true ↔ ∃ f ∈ db.follows, f.user = v ∧ f.author = a) ∧
    (p ∈ profileFeed db a ↔ p ∈ db.posts ∧ p.author = a) ∧
    profile db none a = .page ⟨profileFeed db a, a, none⟩ := by
  have ha2 : a ∈ db.users := by simpa using ha
  refine ⟨by simp [profile, ha2], followExists_iff db v a, ?_, by simp [profile, ha2]⟩
  rw [profileFeed, mem_sortPosts, List.mem_filter]
  simp

/-- C5 witness: in `exDb`, the authenticated viewer 1 sees the profile of
user 0 with `following = some false` (no edge `(1, 0)` exists), and the
author's post `exPost` is in the profile feed. -/
theorem profile_following_flag_witness :
    exDb.users.contains 0 = true ∧
    profile exDb (some 1) 0
      = .page ⟨profileFeed exDb 0, 0, some (followExists exDb 1 0)⟩ ∧
    (exPost ∈ profileFeed exDb 0 ↔ exPost ∈ exDb.posts ∧ exPost.author = 0) :=
  ⟨by decide,
   (profile_following_flag exDb 1 0 exPost (by decide)).1,
   (profile_following_flag exDb 1 0 exPost (by decide)).2.2.1⟩

/-- C6: an authenticated actor POSTing an invalid (e.g. empty-text) comment
form on an existing post persists no comment — the store is returned
unchanged — and is answered with a plain redirect to that post's detail view,
which carries no field-level errors. -/
theorem add_comment_invalid_form (db : DB) (v postId now : Nat)
    (f : CommentFormData) (p : Post)
    (hp : db.posts.find? (fun q => q.id == postId) = some p)
    (hf : commentFormValid f = false) :
    add_comment db (some v) postId Method.post f now
      = .redirectDetail postId db := by
  simp [add_comment, hp, hf]

/-- C6 witness: POSTing the empty comment form on post 1 of `exDb` leaves
the store unchanged and redirects to the detail view of post 1. -/
theorem add_comment_invalid_form_witness :
    exDb.posts.find? (fun q => q.id == 1) = some exPost ∧
    commentFormValid ⟨""⟩ = false ∧
    add_comment exDb (some 1) 1 Method.post ⟨""⟩ 7
      = CommentResult.redirectDetail 1 exDb :=
  ⟨by decide, by decide,
   add_comment_invalid_form exDb 1 1 7 ⟨""⟩ exPost (by decide) (by decide)⟩

/-- C10 (implicit): for an authenticated actor, a non-POST (GET) request to
`add_comment` on an existing post id creates no comment and leaves the whole
store unchanged, answering with a redirect to that post's detail view. -/
theorem add_comment_get_no_effect (db : DB) (v postId now : Nat)
    (f : CommentFormData) (p : Post)
    (hp : db.posts.find? (fun q => q.id == postId) = some p) :
    add_comment db (some v) postId Method.get f now
      = .redirectDetail postId db := by
  simp [add_comment, hp]

/-- C10 witness: a GET request to `add_comment` for post 1 of `exDb` — even
with a valid comment text bound — leaves the store unchanged and redirects
to the detail view. -/
theorem add_comment_get_no_effect_witness :
    exDb.posts.find? (fun q => q.id == 1) = some exPost ∧
    add_comment exDb (some 1) 1 Method.get ⟨"nice"⟩ 7
      = CommentResult.redirectDetail 1 exDb :=
  ⟨by decide,
   add_comment_get_no_effect exDb 1 1 7 ⟨"nice"⟩ exPost (by decide)⟩

/-- C2: the global feed's rendered output is cached under the fixed key for
20 seconds.  A request on a cold cache renders fresh and caches; any request
within the window returns the previously rendered bytes whatever the current
store is (so no write — which only changes the store — invalidates the
cache); a request at or after expiry renders fresh from the current store,
as does a request after an explicit cache clear (`none`).  The other views
(`group_posts`, `profile`, `follow_index`, `post_detail`) take no cache state
at all and are recomputed from the store on every request. -/
theorem index_cache_window (db db2 : DB) (t0 t1 t2 : Nat)
    (h1 : t1 < t0 + cacheSeconds) (h2 : t0 + cacheSeconds ≤ t2) :
    (index db none t0).1 = renderIndex db ∧
    (index db2 (index db none t0).2 t1).1 = renderIndex db ∧
    (index db2 (index db none t0).2 t2).1 = renderIndex db2 ∧
    (index db2 none t1).1 = renderIndex db2 := by
  refine ⟨rfl, ?_, ?_, rfl⟩
  · simp [index, h1]
  · simp [index, Nat.not_lt.mpr h2]

/-- C2 witness: the store mutation of `test_cache_index` (post text changes
from "hello" to "changed") changes the fresh render, yet the request 10
seconds after the first one still returns the bytes rendered before the
change; the requests at expiry (t = 20) and after a cache clear return the
new bytes. -/
theorem index_cache_window_witness :
    (0 : Nat) + 10 < 0 + cacheSeconds ∧ (0 : Nat) + cacheSeconds ≤ 20 ∧
    renderIndex exDb ≠ renderIndex exDbEdited ∧
    ((index exDb none 0).1 = renderIndex exDb ∧
      (index exDbEdited (index exDb none 0).2 (0 + 10)).1 = renderIndex exDb ∧
      (index exDbEdited (index exDb none 0).2 20).1 = renderIndex exDbEdited ∧
      (index exDbEdited none (0 + 10)).1 = renderIndex exDbEdited) :=
  ⟨by decide, by decide, by decide,
   index_cache_window exDb exDbEdited 0 (0 + 10) 20 (by decide) (by decide)⟩

/-- C8: for a feed of `N` items and page size `S > 0`, every valid page `k`
(one with `(k-1)*S < N`) holds `min S (N - (k-1)*S)` items, and an
out-of-range page number `j` clamps to the last valid page instead of
erroring. -/
theorem paginate_spec {α : Type} (items : List α) (S k j : Nat) (hS : 0 < S)
    (hk1 : 1 ≤ k) (hk : (k - 1) * S < items.length)
    (hj : numPages items.length S < j) :
    (paginate items S k).length = min S (items.length - (k - 1) * S) ∧
    paginate items S j = paginate items S (numPages items.length S) := by
  constructor
  · have hknp : k ≤ numPages items.length S := by
      have hdiv : k ≤ (items.length + S - 1) / S := by
        rw [Nat.le_div_iff_mul_le hS]
        have hmul : k * S = (k - 1) * S + S := by
          cases k with
          | zero => omega
          | succ n => simp [Nat.succ_sub_one, Nat.succ_mul]
        omega
      exact le_max_of_le_right hdiv
    have hclamp : min (max k 1) (numPages items.length S) = k := by omega
    simp [paginate, hclamp, List.length_take, List.length_drop]
  · have hnp1 : 1 ≤ numPages items.length S := le_max_left 1 _
    have e1 : min (max j 1) (numPages items.length S)
        = numPages items.length S := by omega
    have e2 : min (max (numPages items.length S) 1) (numPages items.length S)
        = numPages items.length S := by omega
    simp only [paginate, e1, e2]

/-- C8 witness: thirteen items with page size 10 (the setting used by
`test_pages_contain_ten_records_and_class_page`): page 2 holds
`min 10 (13 - 10) = 3` items, and the out-of-range page 5 returns the same
page as the last valid page. -/
theorem paginate_spec_witness :
    (0 : Nat) < 10 ∧ (1 : Nat) ≤ 2 ∧
    (2 - 1) * 10 < (List.range 13).length ∧
    numPages (List.range 13).length 10 < 5 ∧
    ((paginate (List.range 13) 10 2).length
        = min 10 ((List.range 13).length - (2 - 1) * 10) ∧
      paginate (List.range 13) 10 5
        = paginate (List.range 13) 10 (numPages (List.range 13).length 10)) :=
  ⟨by decide, by decide, by decide, by decide,
   paginate_spec (List.range 13) 10 2 5 (by decide) (by decide) (by decide)
     (by decide)⟩

end Yatube
